import Mathlib

/-!
Verification of the rustic-yellow emulator frontend against its
natural-language specification.  Rust code is shallowly embedded:
pure functions become Lean functions, stateful methods become explicit
state passing, machine integers become `Nat`/`Int` with explicit
wrapping where it matters, and panics become `Except` errors.
-/

namespace RusticYellow

/-! ## Session construction (`src/game.rs`, `Game::new`)

`Game::new` loads the fixed ROM image and `assert_eq!`s three header
bytes before constructing the CPU.  A failed assertion (or an
out-of-bounds index) is a Rust panic, embedded here as `Except.error`.
-/

/-- One `assert_eq!(rom[idx], expected)` from `Game::new`: indexing out of
bounds and a failed equality are both panics, modelled as errors. -/
def romAssert (rom : List Nat) (idx expected : Nat) : Except String Unit :=
  match rom.get? idx with
  | none => Except.error "index out of bounds"
  | some b => if b = expected then Except.ok () else Except.error "assertion failed"

/-- `Game::new` (src/game.rs lines 10-24): validates the three fixed header
bytes of the ROM image, then hands the image to the CPU.  The CPU
construction itself is outside this embedding; success is the point. -/
def gameNew (rom : List Nat) : Except String (List Nat) := do
  romAssert rom 0x143 0x80
  romAssert rom 0x147 0x1b
  romAssert rom 0x149 0x03
  return rom

/-! ## Terminal shape drawing (`src/frame/shape.rs`)

`termwiz::surface::Surface` is embedded as the list of `Change`s added to
it (`add_change` appends); `ColorAttribute` is abstracted to a `Nat`
color id.  `Line::draw` always returns `Ok`, so it is embedded as a pure
function on the change list. -/

/-- termwiz `Change`, restricted to the constructors the shape code emits. -/
inductive Change where
  | cursorPosition (x y : Nat)
  | attrBackground (color : Nat)
  | text (s : String)
  deriving DecidableEq, Repr

/-- Rust `i32 as usize` cast: sign-extend and reinterpret, i.e. wrap into
`[0, 2^64)`. -/
def i2u (x : Int) : Nat := (x % (2 ^ 64 : Int)).toNat

/-- `Point(pub u16, pub u16)` from src/frame/shape.rs. -/
structure PointS where
  x : Nat
  y : Nat
  deriving DecidableEq, Repr, Inhabited

/-- `Line(pub u16, pub u16, pub u16, pub u16)` from src/frame/shape.rs. -/
structure LineS where
  x1 : Nat
  y1 : Nat
  x2 : Nat
  y2 : Nat
  deriving DecidableEq, Repr

/-- Rust `u16` addition as the release build performs it: wrapping into
`[0, 2^16)`.  (A debug build panics on overflow instead.) -/
def w16 (n : Nat) : Nat := n % 2 ^ 16

/-- Rust `i32` arithmetic as the release build performs it: wrap the result
into `[-2^31, 2^31)`.  (A debug build panics on overflow instead.) -/
def w32 (x : Int) : Int := (x + 2 ^ 31) % 2 ^ 32 - 2 ^ 31

/-- One row of `Line::draw`'s diagonal branch (src/frame/shape.rs lines
132-141): the inner `for x_offset in (x_chunks*y_offset)..(x_chunks*y_offset
+ 1)` loop.  Both range endpoints are `i32` products/sums, so they wrap; the
range is empty when the upper bound wraps below the lower one, and otherwise
yields the single offset `lo`. -/
def LineS.diagRow (l : LineS) (xChunks : Int) (yo : Nat) (s : List Change) : List Change :=
  let lo : Int := w32 (xChunks * (yo : Int))
  let hi : Int := w32 (lo + 1)
  (List.range (hi - lo).toNat).foldl
    (fun s2 k =>
      s2 ++ [Change.cursorPosition (i2u (w32 ((l.x1 : Int) + (lo + (k : Int)))))
               (i2u (w32 ((l.y1 : Int) + (yo : Int)))),
             Change.text " "]) s

/-- `Line::draw` (src/frame/shape.rs lines 104-146): vertical branch iterates
`0..y2`, horizontal branch `0..x2`, and the diagonal branch steps one cell
per row using truncating `i32` division.  The `u16` coordinate additions and
`i32` products/sums wrap as in a release build (`w16`/`w32`); a debug build
panics at the same inputs.  Appends changes to the surface. -/
def LineS.draw (l : LineS) (surface : List Change) (stroke : Nat) : List Change :=
  let surface := surface ++ [Change.attrBackground stroke]
  if l.x1 = l.x2 then
    (List.range l.y2).foldl
      (fun s yo => s ++ [Change.cursorPosition l.x1 (w16 (l.y1 + yo)), Change.text " "]) surface
  else if l.y1 = l.y2 then
    (List.range l.x2).foldl
      (fun s xo => s ++ [Change.cursorPosition (w16 (l.x1 + xo)) l.y1, Change.text " "]) surface
  else
    let yDelta : Int := (l.y2 : Int) - (l.y1 : Int)
    let xChunks : Int := Int.tdiv ((l.x2 : Int) - (l.x1 : Int)) yDelta
    (List.range (yDelta + 1).toNat).foldl (fun s yo => l.diagRow xChunks yo s) surface

/-- `CustomShape(pub Vec<Point>, pub bool)` from src/frame/shape.rs. -/
structure CustomShape where
  points : List PointS
  close : Bool

/-- `CustomShape::draw` (src/frame/shape.rs lines 170-199).  The source loop
`for i in 0..len-1 { Line(pts[i], pts[i+1]) }` walks consecutive pairs,
embedded as `points.zip points.tail`; the `first()/last().unwrap()` panics
are embedded as errors (they are unreachable under the length guard). -/
def CustomShape.draw (c : CustomShape) (surface : List Change) (stroke : Nat) :
    Except String (List Change) :=
  if c.points.length < 3 then
    Except.error "Not enough vertecies!"
  else
    let surface := (c.points.zip c.points.tail).foldl
      (fun s p => LineS.draw ⟨p.1.x, p.1.y, p.2.x, p.2.y⟩ s stroke) surface
    if c.close then
      match c.points.head?, c.points.getLast? with
      | some first, some last =>
          Except.ok (LineS.draw ⟨first.x, first.y, last.x, last.y⟩ surface stroke)
      | _, _ => Except.error "unwrap of empty point list"
    else
      Except.ok surface

/-- A ROM image with exactly the three expected header bytes. -/
def validRom : List Nat :=
  (((List.replicate 0x150 0).set 0x143 0x80).set 0x147 0x1b).set 0x149 0x03

/-! ## Sixel output cache (`src/sixel.rs`, `CachedSixel`)

`encode_raw` calls into the external `icy_sixel` encoder, embedded as a
function parameter `enc` (deterministic: same input, same bytes), and
`String::from_utf8_lossy` as a function parameter `lossy`.  `tick`'s
mutation of `self` becomes state passing. -/

/-- `CachedSixel` (src/sixel.rs lines 78-83); `width`/`height` are the
fixed frame dimensions, `sixelData` the cached encoder output. -/
structure CachedSixel where
  sixel : String
  width : Nat
  height : Nat
  sixelData : List Nat
  deriving DecidableEq, Repr

/-- `CachedSixel::new` (src/sixel.rs lines 86-93). -/
def CachedSixel.new (width height : Nat) : CachedSixel :=
  { sixel := "", width := width, height := height, sixelData := [] }

/-- `CachedSixel::tick` (src/sixel.rs lines 99-138): encode the frame, emit
`Some(Change::Text(..))` on the first frame or when the encoding changed,
`None` when the encoding equals the cached one. -/
def CachedSixel.tick (enc : List Nat → Nat → Nat → List Nat) (lossy : List Nat → String)
    (s : CachedSixel) (bytes : List Nat) : Option Change × CachedSixel :=
  let data := enc bytes s.width s.height
  if s.sixelData.isEmpty then
    (some (Change.text (lossy data)),
      { s with sixel := lossy data, sixelData := data })
  else if s.sixelData = data then
    (none, s)
  else
    (some (Change.text (lossy data)),
      { s with sixel := lossy data, sixelData := data })

/-! ## Keypad queue (spec §3, §4.4)

Modelled from the spec: the keypad queue (`crate::keypad`) is not under
src/; only its consumers are.  The queue is an ordered sequence of
button-transition events, consumed FIFO, backed by a channel whose
producer may disconnect. -/

/-- The core's key-event vocabulary (spec §6: a fixed enumerated key set). -/
inductive KeypadKey where
  | A
  | B
  | Up
  | Down
  | Left
  | Right
  | Start
  | Select
  deriving DecidableEq, Repr

/-- Modelled from the spec: a button-transition event (key, pressed or
released, shift modifier), spec §3 "Keypad queue". -/
structure KeyEvent where
  key : KeypadKey
  pressed : Bool
  shift : Bool
  deriving DecidableEq, Repr

/-- Modelled from the spec: the ordered event queue plus the
producer-disconnected flag (spec §4.4). -/
structure KeypadQueue where
  pending : List KeyEvent
  disconnected : Bool
  deriving DecidableEq, Repr

/-- What one `keypad_wait()` yields: the next event, or the end-of-session
signal when the producer has disconnected (spec §4.4). -/
inductive WaitResult where
  | ev (e : KeyEvent)
  | endOfSession
  deriving DecidableEq, Repr

/-- Modelled from the spec: `keypad_wait()` (spec §4.4).  `none` models
"still blocked waiting for a producer that is alive but silent"; with a
disconnected producer it returns deterministically. -/
def keypadWait (q : KeypadQueue) : Option (WaitResult × KeypadQueue) :=
  match q.pending with
  | e :: rest => some (WaitResult.ev e, { q with pending := rest })
  | [] => if q.disconnected then some (WaitResult.endOfSession, q) else none

/-- Modelled from the spec: the producer pushing one event into the ordered
channel. -/
def pushEvent (q : KeypadQueue) (e : KeyEvent) : KeypadQueue :=
  { q with pending := q.pending ++ [e] }

/-- Producer pushing a whole sequence of events, in order. -/
def pushEvents (q : KeypadQueue) (es : List KeyEvent) : KeypadQueue :=
  es.foldl pushEvent q

/-- Draining the queue `n` times via `keypad_wait()`; `none` if any wait
blocks. -/
def drainN (q : KeypadQueue) : Nat → Option (List WaitResult × KeypadQueue)
  | 0 => some ([], q)
  | n + 1 =>
    match keypadWait q with
    | none => none
    | some (r, q') =>
      match drainN q' n with
      | none => none
      | some (rs, q'') => some (r :: rs, q'')

/-! ## Memory subsystem and `replace_ram` (spec §3, §4.2)

Modelled from the spec: the memory subsystem (`crate::mmu`, `crate::mbc5`)
is not under src/; only its callers are (`cpu.replace_ram(..)` in
src/src/game/engine/menus/main_menu.rs line 186). -/

/-- Modelled from the spec: CPU + MMU + bank-controller state (spec §3
"Memory map", "Bank-controller state", "CPU state").  `ram` is the mutable
work-RAM/battery-RAM region a save snapshot replaces wholesale. -/
structure Mmu where
  rom : List Nat
  ram : List Nat
  ramOn : Bool
  advancedMode : Bool
  romBank : Nat
  ramBank : Nat
  pc : Nat
  cycles : Nat
  deriving DecidableEq, Repr

/-- Modelled from the spec: bank-controller writes follow fixed
address-range semantics (spec §4.2): the RAM-enable range latches the
enable flag from a magic value, the mode range toggles simple vs advanced
addressing, bank-select ranges latch the bank indices. -/
def mmuWriteControl (m : Mmu) (addr value : Nat) : Mmu :=
  if addr < 0x2000 then { m with ramOn := value % 0x10 = 0x0a }
  else if addr < 0x4000 then { m with romBank := value }
  else if addr < 0x6000 then { m with ramBank := value }
  else if addr < 0x8000 then { m with advancedMode := value % 2 = 1 }
  else m

/-- Modelled from the spec: `replace_ram(image)` atomically overwrites the
mutable RAM regions with an externally supplied snapshot (spec §4.2); it is
a pure memory splice, not a "continue execution" operation. -/
def replaceRam (m : Mmu) (image : List Nat) : Mmu :=
  { m with ram := image }

/-! ## Hybrid call protocol (spec §4.5)

Modelled from the spec: the CPU engine (`crate::cpu`) is not under src/;
only native callers such as `cpu.call(0x2233)` in
src/src/game/engine/menus/main_menu.rs are.  Per spec §9, the protocol is
modelled as an execution-authority machine: `call(address)` pushes a
synthetic return address, sets the program counter, and steps binary
opcodes until the synthetic address is reached.  Opcodes are abstracted to
their stack and memory effects. -/

/-- Modelled from the spec: binary opcodes abstracted to stack pushes and
pops, memory writes, no-ops, and return (spec §3 CPU-state invariant:
"any push/pop pair must be balanced across a call/return"). -/
inductive Inst where
  | push (v : Nat)
  | pop
  | setm (a v : Nat)
  | nop
  | ret
  deriving DecidableEq, Repr

/-- Pointwise memory update. -/
def memSet (f : Nat → Nat) (a v : Nat) : Nat → Nat :=
  fun x => if x = a then v else f x

/-- Modelled from the spec: CPU state visible to the protocol — program
counter, the stack region (top first; the stack pointer is `stackBase`
minus the length), and memory. -/
structure MState where
  pc : Nat
  stack : List Nat
  mem : Nat → Nat

/-- One opcode step of the binary (spec §4.1 `do_cycle`, restricted to the
abstract opcode set).  `ret` pops the return address into the program
counter. -/
def step (prog : Nat → Inst) (s : MState) : MState :=
  match prog s.pc with
  | Inst.push v => { s with stack := v :: s.stack, pc := s.pc + 1 }
  | Inst.pop => { s with stack := s.stack.tail, pc := s.pc + 1 }
  | Inst.setm a v => { s with mem := memSet s.mem a v, pc := s.pc + 1 }
  | Inst.nop => { s with pc := s.pc + 1 }
  | Inst.ret =>
    match s.stack with
    | a :: rest => { s with pc := a, stack := rest }
    | [] => s

/-- Step the binary until the program counter hits `target` (the synthetic
return address); `none` if `fuel` runs out first (a diverging hand-off,
spec §4.5 failure semantics). -/
def runUntil (prog : Nat → Inst) (target : Nat) : Nat → MState → Option MState
  | 0, _ => none
  | fuel + 1, s => if s.pc = target then some s else runUntil prog target fuel (step prog s)

/-- Modelled from the spec: `call(address)` (spec §4.5) — push a synthetic
return address onto the CPU stack, set the program counter to `address`,
and transfer execution authority to the opcode stream until the synthetic
return address is hit. -/
def callRoutine (prog : Nat → Inst) (synthRet addr fuel : Nat) (s : MState) : Option MState :=
  runUntil prog synthRet fuel { s with stack := synthRet :: s.stack, pc := addr }

/-- A routine body balances its own stack when, tracking the frame height
`d`, it never pops below its own frame and ends the body at height zero. -/
def balAux : List Inst → Nat → Bool
  | [], d => d == 0
  | Inst.push _ :: r, d => balAux r (d + 1)
  | Inst.pop :: r, d =>
    match d with
    | 0 => false
    | d' + 1 => balAux r d'
  | Inst.setm _ _ :: r, d => balAux r d
  | Inst.nop :: r, d => balAux r d
  | Inst.ret :: _, _ => false

/-- A stack-balancing routine body. -/
def balanced (body : List Inst) : Bool := balAux body 0

/-- The pure effect of a straight-line routine body on its own stack frame
and on memory. -/
def runBody : List Inst → List Nat → (Nat → Nat) → List Nat × (Nat → Nat)
  | [], frame, mem => (frame, mem)
  | Inst.push v :: r, frame, mem => runBody r (v :: frame) mem
  | Inst.pop :: r, frame, mem => runBody r frame.tail mem
  | Inst.setm a v :: r, frame, mem => runBody r frame (memSet mem a v)
  | Inst.nop :: r, frame, mem => runBody r frame mem
  | Inst.ret :: _, frame, mem => (frame, mem)

/-- A concrete balanced routine: push two values, write one to memory, pop
both, return. -/
def demoBody : List Inst :=
  [Inst.push 5, Inst.push 7, Inst.setm 3 9, Inst.pop, Inst.pop]

/-- A concrete program with `demoBody` loaded at address 100 and `ret` right
after it. -/
def demoProg : Nat → Inst :=
  fun i =>
    if i = 100 then Inst.push 5
    else if i = 101 then Inst.push 7
    else if i = 102 then Inst.setm 3 9
    else if i = 103 then Inst.pop
    else if i = 104 then Inst.pop
    else if i = 105 then Inst.ret
    else Inst.nop

/-! ## Native main menu (`src/game/engine/menus/main_menu.rs`)

The menu code drives the emulator through the `Cpu` facade.  The facade
(`crate::cpu`, `crate::gpu`, `crate::saves`, the `wram`/`sram`/constants
modules and the `home::text` drawing helpers) is not under src/, so its
effects are embedded as an explicit state: a flat byte memory, a
chronological log of externally visible CPU operations, a host-side error
log counter, and the GPU overlay-layer stack.  `keypad_wait()` consumes
the next key from an ambient list; loops carry explicit fuel.  Rust panics
(`unreachable!`, slice indexing, debug-mode underflow, the invalid-name
panic) are embedded as `Except.error`. -/

/-- Modelled from the spec: wram/sram/hardware address constants; the
`ram`/`constants` modules are not under src/.  The exact numeric values
are immaterial; they are distinct addresses in the regions the spec
names. -/
def W_OPTIONS_INITIALIZED : Nat := 0xd08a

/-- Modelled from the spec: see `W_OPTIONS_INITIALIZED`. -/
def W_SAVE_FILE_STATUS : Nat := 0xd088

/-- Modelled from the spec: see `W_OPTIONS_INITIALIZED`. -/
def W_LINK_STATE : Nat := 0xd12b

/-- Modelled from the spec: `serial_constants::LINK_STATE_NONE`. -/
def LINK_STATE_NONE : Nat := 0

/-- Modelled from the spec: see `W_OPTIONS_INITIALIZED`. -/
def W_PARTY_AND_BILLS_PC_SAVED_MENU_ITEM : Nat := 0xcc2f

/-- Modelled from the spec: see `W_OPTIONS_INITIALIZED`. -/
def W_DEFAULT_MAP : Nat := 0xd07c

/-- Modelled from the spec: see `W_OPTIONS_INITIALIZED`. -/
def W_D72E : Nat := 0xd72e

/-- Modelled from the spec: see `W_OPTIONS_INITIALIZED`. -/
def W_LETTER_PRINTING_DELAY_FLAGS : Nat := 0xd358

/-- Modelled from the spec: see `W_OPTIONS_INITIALIZED`. -/
def W_OPTIONS : Nat := 0xd355

/-- Modelled from the spec: see `W_OPTIONS_INITIALIZED`. -/
def W_PRINTER_SETTINGS : Nat := 0xd497

/-- Modelled from the spec: `misc_constants::TEXT_DELAY_FAST`. -/
def TEXT_DELAY_FAST : Nat := 1

/-- Modelled from the spec: `misc_constants::TEXT_DELAY_MEDIUM`. -/
def TEXT_DELAY_MEDIUM : Nat := 3

/-- Modelled from the spec: see `W_OPTIONS_INITIALIZED`. -/
def W_OBTAINED_BADGES : Nat := 0xd356

/-- Modelled from the spec: see `W_OPTIONS_INITIALIZED`. -/
def W_PLAY_TIME_HOURS : Nat := 0xda41

/-- Modelled from the spec: see `W_OPTIONS_INITIALIZED`. -/
def W_PLAY_TIME_MINUTES : Nat := 0xda43

/-- Modelled from the spec: see `W_OPTIONS_INITIALIZED`. -/
def W_POKEDEX_OWNED : Nat := 0xd2f7

/-- Modelled from the spec: see `W_OPTIONS_INITIALIZED`. -/
def W_POKEDEX_OWNED_END : Nat := 0xd30a

/-- Modelled from the spec: MBC1 register-mapped write address (§4.2). -/
def MBC1_SRAM_ENABLE : Nat := 0x0000

/-- Modelled from the spec: magic RAM-enable value (§4.2). -/
def SRAM_ENABLE : Nat := 0x0a

/-- Modelled from the spec: RAM-disable value. -/
def SRAM_DISABLE : Nat := 0x00

/-- Modelled from the spec: MBC1 banking-mode write address (§4.2). -/
def MBC1_SRAM_BANKING_MODE : Nat := 0x6000

/-- Modelled from the spec: MBC1 RAM-bank-select write address (§4.2). -/
def MBC1_SRAM_BANK : Nat := 0x4000

/-- Modelled from the spec: SRAM address of the saved player name. -/
def S_PLAYER_NAME : Nat := 0xa598

/-- Modelled from the spec: `text_constants::NAME_LENGTH` of the original
game. -/
def NAME_LENGTH : Nat := 7

/-- Modelled from the spec: `home::text::SELECTED_ITEM` cell attribute. -/
def SELECTED_ITEM : Nat := 1

/-- Modelled from the spec: `home::text::EMPTY` cell attribute. -/
def EMPTY : Nat := 0

/-- A drawing operation applied to an overlay layer (spec §4.3 drawing
primitives), recorded in order. -/
inductive DrawOp where
  | border (layer x y w h : Nat)
  | str (layer x y : Nat) (s : String)
  | bg (layer x y attr : Nat)
  | screenUpdate
  deriving DecidableEq, Repr

/-- The GPU overlay-layer state: stack of live layer handles (top first), a
fresh-handle counter, a count of pops whose handle was not the top of the
stack (the spec §3 programming error), and the ordered draw log. -/
structure GpuSt where
  stack : List Nat
  next : Nat
  badPop : Nat
  draws : List DrawOp
  deriving DecidableEq, Repr

/-- An externally visible CPU operation issued by the menu code, in
chronological order. -/
inductive Ev where
  | wbyte (a v : Nat)
  | call (a : Nat)
  | jump (a : Nat)
  | spush (v : Nat)
  | paletteCmd
  | predefLoadSAV
  | ramLoad
  deriving DecidableEq, Repr

/-- The emulator state as seen by the native menu code, plus the host-side
`eprintln!` counter. -/
structure St where
  mem : Nat → Nat
  events : List Ev
  errLog : Nat
  gpu : GpuSt

/-- `cpu.write_byte`. -/
def St.writeByte (st : St) (a v : Nat) : St :=
  { st with mem := memSet st.mem a v, events := st.events ++ [Ev.wbyte a v] }

/-- `cpu.read_byte`. -/
def St.readByte (st : St) (a : Nat) : Nat := st.mem a

/-- `cpu.call(addr)`: runs a binary routine; its memory effects are outside
this menu-level embedding, so only the transfer is logged. -/
def St.call (st : St) (a : Nat) : St := { st with events := st.events ++ [Ev.call a] }

/-- `cpu.jump(addr)`: one-way transfer, logged. -/
def St.jump (st : St) (a : Nat) : St := { st with events := st.events ++ [Ev.jump a] }

/-- `cpu.stack_push(value)`. -/
def St.stackPush (st : St) (v : Nat) : St := { st with events := st.events ++ [Ev.spush v] }

/-- `home::palettes::run_default_palette_command` (module not under src/),
logged. -/
def St.paletteCmd (st : St) : St := { st with events := st.events ++ [Ev.paletteCmd] }

/-- `predef_call!(cpu, LoadSAV)` (module not under src/), logged. -/
def St.predefLoadSAV (st : St) : St :=
  { st with events := st.events ++ [Ev.predefLoadSAV] }

/-- `cpu.replace_ram(image)`: the RAM snapshot becomes the visible memory;
logged. -/
def St.replaceRam (st : St) (image : Nat → Nat) : St :=
  { st with mem := image, events := st.events ++ [Ev.ramLoad] }

/-- `eprintln!`: host-side logging, not emulator state. -/
def St.logError (st : St) : St := { st with errLog := st.errLog + 1 }

/-- `cpu.gpu_push_layer()`: allocates a fresh handle on top of the stack. -/
def St.gpuPushLayer (st : St) : Nat × St :=
  (st.gpu.next,
    { st with gpu := { st.gpu with stack := st.gpu.next :: st.gpu.stack,
                                   next := st.gpu.next + 1 } })

/-- `cpu.gpu_pop_layer(handle)`: pops the top layer; a pop whose handle is
not the top is counted as a `badPop` (spec §3: a programming error). -/
def St.gpuPopLayer (st : St) (h : Nat) : St :=
  if st.gpu.stack.head? = some h then
    { st with gpu := { st.gpu with stack := st.gpu.stack.tail } }
  else
    { st with gpu := { st.gpu with stack := st.gpu.stack.tail,
                                   badPop := st.gpu.badPop + 1 } }

/-- Record one drawing operation. -/
def St.draw (st : St) (op : DrawOp) : St :=
  { st with gpu := { st.gpu with draws := st.gpu.draws ++ [op] } }

/-- `home::text::text_box_border` applied to `cpu.gpu_mut_layer(layer)`. -/
def textBoxBorder (layer x y w h : Nat) (st : St) : St :=
  st.draw (DrawOp.border layer x y w h)

/-- `home::text::place_string` applied to `cpu.gpu_mut_layer(layer)`. -/
def placeString (layer x y : Nat) (s : String) (st : St) : St :=
  st.draw (DrawOp.str layer x y s)

/-- `.set_background` on `cpu.gpu_mut_layer(layer)`. -/
def setBackground (layer x y attr : Nat) (st : St) : St :=
  st.draw (DrawOp.bg layer x y attr)

/-- `cpu.gpu_update_screen()`. -/
def St.gpuUpdateScreen (st : St) : St := st.draw DrawOp.screenUpdate

/-- A save file as `saves::list_save_files()` reports it: display name plus
the RAM image `std::fs::read(&save.path)` yields. -/
structure SaveFile where
  name : String
  data : Nat → Nat

/-- Rust panics and fuel/key exhaustion of the embedded menu code. -/
inductive MenuErr where
  | outOfFuel
  | outOfKeys
  | invalidNameChar (b : Nat)
  | indexOutOfBounds
  | lengthUnderflow
  | unreachableItem (n : Nat)
  deriving DecidableEq, Repr

/-- `u8::count_ones` (bytes are 8 bits wide). -/
def popCountByte (n : Nat) : Nat :=
  (List.range 8).foldl (fun acc i => acc + n / 2 ^ i % 2) 0

/-- `init_options` (src/game/engine/menus/main_menu.rs lines 300-310). -/
def initOptions (st : St) : St :=
  ((st.writeByte W_LETTER_PRINTING_DELAY_FLAGS TEXT_DELAY_FAST).writeByte
      W_OPTIONS TEXT_DELAY_MEDIUM).writeByte
    W_PRINTER_SETTINGS 64

/-- `read_num_owned_mons` (lines 289-298): popcount over the owned-list
bytes. -/
def readNumOwnedMons (st : St) : Nat :=
  (List.range (W_POKEDEX_OWNED_END - W_POKEDEX_OWNED)).foldl
    (fun acc j => acc + popCountByte (st.readByte (W_POKEDEX_OWNED + j))) 0

/-- The decode loop of `check_for_player_name_in_sram` (lines 260-278):
reads `rem` successive bytes starting at address `i`, stopping at the first
0x50 terminator; an unmapped byte is the source's panic, returned as the
offending byte. -/
def decodeNameFrom (bytes : Nat → Nat) : Nat → Nat → Except Nat (List Char)
  | _, 0 => Except.ok []
  | i, rem + 1 =>
    let ch := bytes i
    if ch = 0x50 then Except.ok []
    else if 0x80 ≤ ch ∧ ch ≤ 0x99 then
      (decodeNameFrom bytes (i + 1) rem).map (fun s => Char.ofNat (65 + (ch - 0x80)) :: s)
    else if 0xa0 ≤ ch ∧ ch ≤ 0xb9 then
      (decodeNameFrom bytes (i + 1) rem).map (fun s => Char.ofNat (97 + (ch - 0xa0)) :: s)
    else if 0xf6 ≤ ch ∧ ch ≤ 0xff then
      (decodeNameFrom bytes (i + 1) rem).map (fun s => Char.ofNat (48 + (ch - 0xf6)) :: s)
    else Except.error ch

/-- `check_for_player_name_in_sram` (lines 250-287): enable SRAM access,
decode the name, disable SRAM access.  The invalid-character panic is an
error. -/
def checkForPlayerNameInSram (st : St) : Except MenuErr (String × St) :=
  let st := st.writeByte MBC1_SRAM_ENABLE SRAM_ENABLE
  let st := st.writeByte MBC1_SRAM_BANKING_MODE 1
  let st := st.writeByte MBC1_SRAM_BANK 1
  match decodeNameFrom st.mem S_PLAYER_NAME (NAME_LENGTH + 1) with
  | Except.error b => Except.error (MenuErr.invalidNameChar b)
  | Except.ok cs =>
    let st := st.writeByte MBC1_SRAM_ENABLE SRAM_DISABLE
    let st := st.writeByte MBC1_SRAM_BANKING_MODE 0
    Except.ok (String.mk cs, st)

/-- Left-pad with a fill character, as `format!("{:2}", ..)` and
`format!("{:02}", ..)` do. -/
def padLeft (fill : Char) (w : Nat) (s : String) : String :=
  String.mk (List.replicate (w - s.length) fill) ++ s

/-- The inner key loop of `display_continue_game_info` (lines 232-242):
consume keys until A (true) or B (false); touches no emulator state. -/
def waitABLoop : List KeypadKey → Nat → Except MenuErr (Bool × List KeypadKey)
  | _, 0 => Except.error MenuErr.outOfFuel
  | [], _ + 1 => Except.error MenuErr.outOfKeys
  | k :: keys, fuel + 1 =>
    match k with
    | KeypadKey.A => Except.ok (true, keys)
    | KeypadKey.B => Except.ok (false, keys)
    | _ => waitABLoop keys fuel

/-- `display_continue_game_info` (lines 197-246). -/
def displayContinueGameInfo (st : St) (keys : List KeypadKey) (fuel : Nat) :
    Except MenuErr (Bool × St × List KeypadKey) :=
  match checkForPlayerNameInSram st with
  | Except.error e => Except.error e
  | Except.ok (name, st) =>
    let badges := popCountByte (st.readByte W_OBTAINED_BADGES)
    let numOwned := readNumOwnedMons st
    let hours := st.readByte W_PLAY_TIME_HOURS
    let minutes := st.readByte W_PLAY_TIME_MINUTES
    let (layer, st) := st.gpuPushLayer
    let st := textBoxBorder layer 4 7 14 8 st
    let st := placeString layer 5 9 "PLAYER" st
    let st := placeString layer 12 9 name st
    let st := placeString layer 5 11 "BADGES" st
    let st := placeString layer 17 11 (padLeft ' ' 2 (toString badges)) st
    let st := placeString layer 5 13 "POKéDEX" st
    let st := placeString layer 16 13 (padLeft ' ' 3 (toString numOwned)) st
    let st := placeString layer 5 15 "TIME" st
    let st := placeString layer 13 15
      (padLeft ' ' 3 (toString hours) ++ ":" ++ padLeft '0' 2 (toString minutes)) st
    let st := st.gpuUpdateScreen
    match waitABLoop keys fuel with
    | Except.error e => Except.error e
    | Except.ok (result, keys) => Except.ok (result, st.gpuPopLayer layer, keys)

/-- The event loop of `main_menu_select_save` (lines 151-194).  Debug-mode
underflow of `first_page.len() - 1` and the `list[selected]` indexing panic
are errors. -/
def selectSaveLoop (list firstPage : List SaveFile) (layer : Nat) :
    Nat → St → List KeypadKey → Nat → Except MenuErr (Bool × St × List KeypadKey)
  | _, _, _, 0 => Except.error MenuErr.outOfFuel
  | selected, st, keys, fuel + 1 =>
    let st := setBackground layer 1 (selected * 2 + 2) SELECTED_ITEM st
    let st := st.gpuUpdateScreen
    match keys with
    | [] => Except.error MenuErr.outOfKeys
    | key :: keys =>
      match key with
      | KeypadKey.B => Except.ok (false, st.gpuPopLayer layer, keys)
      | KeypadKey.Up =>
        if selected > 0 then
          let st := setBackground layer 1 (selected * 2 + 2) EMPTY st
          selectSaveLoop list firstPage layer (selected - 1) st keys fuel
        else
          selectSaveLoop list firstPage layer selected st keys fuel
      | KeypadKey.Down =>
        match firstPage.length with
        | 0 => Except.error MenuErr.lengthUnderflow
        | n + 1 =>
          if selected < n then
            let st := setBackground layer 1 (selected * 2 + 2) EMPTY st
            selectSaveLoop list firstPage layer (selected + 1) st keys fuel
          else
            selectSaveLoop list firstPage layer selected st keys fuel
      | KeypadKey.A =>
        if h : selected < list.length then
          let save := list.get ⟨selected, h⟩
          let st := st.replaceRam save.data
          let st := st.predefLoadSAV
          match displayContinueGameInfo st keys fuel with
          | Except.error e => Except.error e
          | Except.ok (true, st, keys) => Except.ok (true, st.gpuPopLayer layer, keys)
          | Except.ok (false, st, keys) =>
            selectSaveLoop list firstPage layer selected st keys fuel
        else Except.error MenuErr.indexOutOfBounds
      | _ => selectSaveLoop list firstPage layer selected st keys fuel

/-- `main_menu_select_save` (lines 127-195).  `saves` is the result of
`saves::list_save_files()` for this run. -/
def mainMenuSelectSave (saves : Except String (List SaveFile)) (st : St)
    (keys : List KeypadKey) (fuel : Nat) : Except MenuErr (Bool × St × List KeypadKey) :=
  match saves with
  | Except.error _ => Except.ok (false, st.logError, keys)
  | Except.ok list =>
    if list.isEmpty then Except.ok (false, st, keys)
    else
      let firstPage := list.take (Nat.min 8 list.length)
      let height := firstPage.length * 2
      let (layer, st) := st.gpuPushLayer
      let st := textBoxBorder layer 0 0 18 height st
      let st := firstPage.enum.foldl
        (fun st p => placeString layer 2 (p.1 * 2 + 2) p.2.name st) st
      selectSaveLoop list firstPage layer 0 st keys fuel

/-- The straight-line prefix of `main_menu` (lines 10-66), up to and
including drawing the menu items and choosing `max_menu_item`.  Returns the
state, `has_saves`, `max_menu_item` and the pushed layer handle. -/
def mainMenuSetup (saves : Except String (List SaveFile)) (st : St) :
    St × Bool × Nat × Nat :=
  let st := st.call 0x2233
  let st := initOptions st
  let st := st.writeByte W_OPTIONS_INITIALIZED 0
  let (st, hasSaves) :=
    match saves with
    | Except.ok files => (st, !files.isEmpty)
    | Except.error _ => (st.logError, false)
  let st := st.writeByte W_SAVE_FILE_STATUS (if hasSaves then 2 else 1)
  let st := st.writeByte W_LINK_STATE LINK_STATE_NONE
  let st := st.writeByte W_PARTY_AND_BILLS_PC_SAVED_MENU_ITEM 0
  let st := st.writeByte (W_PARTY_AND_BILLS_PC_SAVED_MENU_ITEM + 1) 0
  let st := st.writeByte (W_PARTY_AND_BILLS_PC_SAVED_MENU_ITEM + 2) 0
  let st := st.writeByte (W_PARTY_AND_BILLS_PC_SAVED_MENU_ITEM + 3) 0
  let st := st.writeByte W_DEFAULT_MAP 0
  let v := st.readByte W_D72E
  let st := st.writeByte W_D72E (v &&& 0xbf)
  let st := st.stackPush 0x0001
  let st := st.paletteCmd
  let st := st.call 0x36a3
  let st := st.call 0x3683
  let (layer, st) := st.gpuPushLayer
  let st :=
    if hasSaves then
      placeString layer 2 6 "OPTION"
        (placeString layer 2 4 "NEW GAME"
          (placeString layer 2 2 "CONTINUE"
            (textBoxBorder layer 0 0 13 6 st)))
    else
      placeString layer 2 4 "OPTION"
        (placeString layer 2 2 "NEW GAME"
          (textBoxBorder layer 0 0 13 4 st))
  let maxMenuItem := if hasSaves then 2 else 1
  (st, hasSaves, maxMenuItem, layer)

/-- The event loop of `main_menu` (lines 68-124).  The `unreachable!` arm is
an error carrying the offending item index. -/
def mainMenuLoop (saves : Except String (List SaveFile)) (layer : Nat) (hasSaves : Bool)
    (maxMenuItem : Nat) :
    Nat → St → List KeypadKey → Nat → Except MenuErr (St × List KeypadKey)
  | _, _, _, 0 => Except.error MenuErr.outOfFuel
  | selected, st, keys, fuel + 1 =>
    let st := setBackground layer 1 (selected * 2 + 2) SELECTED_ITEM st
    let st := st.gpuUpdateScreen
    match keys with
    | [] => Except.error MenuErr.outOfKeys
    | key :: keys =>
      match key with
      | KeypadKey.B =>
        let st := st.gpuPopLayer layer
        Except.ok (st.jump 0x4171, keys)
      | KeypadKey.Up =>
        if selected > 0 then
          let st := setBackground layer 1 (selected * 2 + 2) EMPTY st
          mainMenuLoop saves layer hasSaves maxMenuItem (selected - 1) st keys fuel
        else
          mainMenuLoop saves layer hasSaves maxMenuItem selected st keys fuel
      | KeypadKey.Down =>
        if selected < maxMenuItem then
          let st := setBackground layer 1 (selected * 2 + 2) EMPTY st
          mainMenuLoop saves layer hasSaves maxMenuItem (selected + 1) st keys fuel
        else
          mainMenuLoop saves layer hasSaves maxMenuItem selected st keys fuel
      | KeypadKey.A =>
        let sel2 := if hasSaves then selected else selected + 1
        match sel2 with
        | 0 =>
          match mainMenuSelectSave saves st keys fuel with
          | Except.error e => Except.error e
          | Except.ok (true, st, keys) =>
            let st := st.gpuPopLayer layer
            Except.ok (st.jump 0x5c83, keys)
          | Except.ok (false, st, keys) =>
            mainMenuLoop saves layer hasSaves maxMenuItem selected st keys fuel
        | 1 =>
          let st := st.gpuPopLayer layer
          Except.ok (st.jump 0x5cd2, keys)
        | 2 =>
          let st := st.gpuPopLayer layer
          let st := st.call 0x5df2
          let st := st.writeByte W_OPTIONS_INITIALIZED 1
          Except.ok (st.jump 0x4171, keys)
        | n + 3 => Except.error (MenuErr.unreachableItem (n + 3))
      | _ => mainMenuLoop saves layer hasSaves maxMenuItem selected st keys fuel

/-- `main_menu` (lines 10-125): the straight-line prefix followed by the
event loop, starting at item 0. -/
def mainMenu (saves : Except String (List SaveFile)) (st : St) (keys : List KeypadKey)
    (fuel : Nat) : Except MenuErr (St × List KeypadKey) :=
  match mainMenuSetup saves st with
  | (st, hasSaves, maxMenuItem, layer) =>
    mainMenuLoop saves layer hasSaves maxMenuItem 0 st keys fuel

/-! ### Claim C7: the SRAM name decoding -/

/-- The fixed byte-to-character mapping in the claim's words: bytes
0x80..=0x99 map to A..Z, 0xa0..=0xb9 to a..z, 0xf6..=0xff to 0..9, and any
other non-terminator byte has no character. -/
def charForByte (ch : Nat) : Option Char :=
  if 0x80 ≤ ch ∧ ch ≤ 0x99 then some (Char.ofNat (65 + (ch - 0x80)))
  else if 0xa0 ≤ ch ∧ ch ≤ 0xb9 then some (Char.ofNat (97 + (ch - 0xa0)))
  else if 0xf6 ≤ ch ∧ ch ≤ 0xff then some (Char.ofNat (48 + (ch - 0xf6)))
  else none

/-- The decoding in the claim's words: walk the byte list, stop at the
first 0x50 terminator, map each byte through `charForByte`, and fail on a
byte with no character. -/
def specDecodeName : List Nat → Except Nat (List Char)
  | [] => Except.ok []
  | ch :: rest =>
    if ch = 0x50 then Except.ok []
    else
      match charForByte ch with
      | some c => (specDecodeName rest).map (fun s => c :: s)
      | none => Except.error ch

/-! ### Claim C6: graceful degradation when the save listing fails -/

/-- The event tail the main-menu prefix appends when there are no usable
saves; `v` is the prior byte at `W_D72E`. -/
def setupEventsNoSaves (v : Nat) : List Ev :=
  [Ev.call 0x2233,
   Ev.wbyte W_LETTER_PRINTING_DELAY_FLAGS TEXT_DELAY_FAST,
   Ev.wbyte W_OPTIONS TEXT_DELAY_MEDIUM,
   Ev.wbyte W_PRINTER_SETTINGS 64,
   Ev.wbyte W_OPTIONS_INITIALIZED 0,
   Ev.wbyte W_SAVE_FILE_STATUS 1,
   Ev.wbyte W_LINK_STATE LINK_STATE_NONE,
   Ev.wbyte W_PARTY_AND_BILLS_PC_SAVED_MENU_ITEM 0,
   Ev.wbyte (W_PARTY_AND_BILLS_PC_SAVED_MENU_ITEM + 1) 0,
   Ev.wbyte (W_PARTY_AND_BILLS_PC_SAVED_MENU_ITEM + 2) 0,
   Ev.wbyte (W_PARTY_AND_BILLS_PC_SAVED_MENU_ITEM + 3) 0,
   Ev.wbyte W_DEFAULT_MAP 0,
   Ev.wbyte W_D72E (v &&& 0xbf),
   Ev.spush 0x0001,
   Ev.paletteCmd,
   Ev.call 0x36a3,
   Ev.call 0x3683]

/-- The layer stack and the count of out-of-order pops, as visible in a
completed run's result. -/
def layerView (r : Except MenuErr (St × List KeypadKey)) : Option (List Nat × Nat) :=
  r.toOption.map (fun out => (out.1.gpu.stack, out.1.gpu.badPop))

/-- `layerView` for the helpers that also return a Bool. -/
def layerView3 (r : Except MenuErr (Bool × St × List KeypadKey)) : Option (List Nat × Nat) :=
  r.toOption.map (fun out => (out.2.1.gpu.stack, out.2.1.gpu.badPop))

/-- A fresh demo state for concrete runs. -/
def demoSt : St :=
  { mem := fun _ => 0, events := [], errLog := 0,
    gpu := { stack := [], next := 0, badPop := 0, draws := [] } }

/-! ### Claim C9: the menu index arithmetic never faults -/

/-- The index-arithmetic panics of claim C9: out-of-bounds list indexing,
`first_page.len() - 1` underflow, and the `unreachable!` arm. -/
def faultErr : MenuErr → Bool
  | MenuErr.indexOutOfBounds => true
  | MenuErr.lengthUnderflow => true
  | MenuErr.unreachableItem _ => true
  | _ => false

/-- Whether a run ended in one of the claim-C9 panics. -/
def isIndexFault {α : Type} : Except MenuErr α → Bool
  | Except.error e => faultErr e
  | Except.ok _ => false

/-! ## Theorems -/

/-! ### Lemmas: changes are only ever appended -/

theorem foldl_append_of_append {α β : Type} (body : List β → α → List β)
    (hb : ∀ s x, body s x = s ++ body [] x) (l : List α) :
    ∀ s, l.foldl body s = s ++ l.foldl body [] := by
  induction l with
  | nil => intro s; simp
  | cons a t ih =>
    intro s
    rw [List.foldl_cons, List.foldl_cons, ih (body s a), hb s a, ih (body [] a)]
    simp

theorem foldl_append_shift {α β : Type} (body : List β → α → List β)
    (hb : ∀ s x, body s x = s ++ body [] x) (l : List α) (s t : List β) :
    l.foldl body (s ++ t) = s ++ l.foldl body ([] ++ t) := by
  rw [foldl_append_of_append body hb l (s ++ t), foldl_append_of_append body hb l ([] ++ t)]
  simp

theorem LineS.diagRow_append (l : LineS) (xChunks : Int) (yo : Nat) (s : List Change) :
    l.diagRow xChunks yo s = s ++ l.diagRow xChunks yo [] := by
  unfold LineS.diagRow
  dsimp only
  exact foldl_append_of_append _ (fun s2 k => rfl) _ s

theorem LineS.draw_append (l : LineS) (s : List Change) (stroke : Nat) :
    l.draw s stroke = s ++ l.draw [] stroke := by
  unfold LineS.draw
  by_cases h1 : l.x1 = l.x2
  · simp only [h1, if_true]
    exact foldl_append_shift _ (fun s yo => rfl) _ s [Change.attrBackground stroke]
  · by_cases h2 : l.y1 = l.y2
    · simp only [h1, if_false, h2, if_true]
      exact foldl_append_shift _ (fun s xo => rfl) _ s [Change.attrBackground stroke]
    · simp only [h1, h2, if_false]
      exact foldl_append_shift _ (fun s yo => l.diagRow_append _ yo s) _ s
        [Change.attrBackground stroke]

theorem foldl_lineDraw (f : PointS × PointS → LineS) (ps : List (PointS × PointS))
    (s : List Change) (stroke : Nat) :
    ps.foldl (fun acc p => (f p).draw acc stroke) s
      = s ++ (ps.map (fun p => (f p).draw [] stroke)).join := by
  induction ps generalizing s with
  | nil => simp
  | cons a t ih =>
    simp only [List.foldl_cons, List.map_cons, List.join]
    rw [LineS.draw_append, ih]
    simp

/-- Claim C10: `CustomShape::draw` returns an error if and only if its point
list has fewer than 3 points; with 3 or more points it returns `Ok`, drawing
one connecting line per consecutive pair of points and, when the close flag
is true, one additional line from the first point to the last point. -/
theorem customShape_draw_characterization (c : CustomShape) (surface : List Change)
    (stroke : Nat) :
    c.draw surface stroke =
      if 3 ≤ c.points.length then
        Except.ok (surface
          ++ ((c.points.zip c.points.tail).map
                (fun p => LineS.draw ⟨p.1.x, p.1.y, p.2.x, p.2.y⟩ [] stroke)).join
          ++ (if c.close then
                LineS.draw
                  ⟨c.points.headI.x, c.points.headI.y,
                   c.points.getLastI.x, c.points.getLastI.y⟩ [] stroke
              else []))
      else Except.error "Not enough vertecies!" := by
  unfold CustomShape.draw
  by_cases h3 : c.points.length < 3
  · rw [if_pos h3, if_neg (Nat.not_le.mpr h3)]
  · rw [if_neg h3, if_pos (Nat.not_lt.mp h3)]
    rw [foldl_lineDraw (fun p => ⟨p.1.x, p.1.y, p.2.x, p.2.y⟩)]
    have hne : c.points ≠ [] := by
      intro h
      rw [h] at h3
      simp at h3
    by_cases hc : c.close
    · simp only [hc, if_true]
      obtain ⟨a, t, hat⟩ := List.exists_cons_of_ne_nil hne
      rw [hat]
      obtain ⟨last, hlast⟩ :=
        Option.isSome_iff_exists.mp (List.getLast?_isSome.mpr (List.cons_ne_nil a t))
      have h2 : (a :: t).getLastI = last := by
        rw [List.getLastI_eq_getLast?, hlast]
      simp only [List.head?_cons, hlast, List.headI_cons, h2]
      rw [LineS.draw_append, List.append_assoc]
    · simp only [hc, if_false]
      simp

/-- Claim C2: `Game::new` validates exactly three fixed header bytes of the
ROM image (0x143 = 0x80, 0x147 = 0x1b, 0x149 = 0x03) and panics before any
emulation begins if and only if at least one mismatches; on a matching image
construction succeeds. -/
theorem gameNew_header_check (rom : List Nat) (h : 0x150 ≤ rom.length) :
    (gameNew rom).isOk = true ↔
      (rom.getD 0x143 0 = 0x80 ∧ rom.getD 0x147 0 = 0x1b ∧ rom.getD 0x149 0 = 0x03) := by
  have h143 : rom.get? 0x143 = some (rom.getD 0x143 0) := by
    rw [List.get?_eq_get (by omega), List.getD_eq_get rom 0 (by omega)]
  have h147 : rom.get? 0x147 = some (rom.getD 0x147 0) := by
    rw [List.get?_eq_get (by omega), List.getD_eq_get rom 0 (by omega)]
  have h149 : rom.get? 0x149 = some (rom.getD 0x149 0) := by
    rw [List.get?_eq_get (by omega), List.getD_eq_get rom 0 (by omega)]
  simp only [gameNew, romAssert, h143, h147, h149, bind, Except.bind]
  by_cases e1 : rom.getD 0x143 0 = 0x80 <;>
    by_cases e2 : rom.getD 0x147 0 = 0x1b <;>
      by_cases e3 : rom.getD 0x149 0 = 0x03 <;>
        [skip; skip; skip; skip; skip; skip; skip; skip] <;>
        simp only [List.getD_eq_getElem?_getD] at e1 e2 e3 <;>
        simp [e1, e2, e3, Except.isOk, Except.toBool, pure, Except.pure,
          List.getD_eq_getElem?_getD]

set_option maxRecDepth 100000 in
theorem gameNew_header_check_witness :
    0x150 ≤ validRom.length ∧
      ((gameNew validRom).isOk = true ↔
        (validRom.getD 0x143 0 = 0x80 ∧ validRom.getD 0x147 0 = 0x1b ∧
          validRom.getD 0x149 0 = 0x03)) :=
  ⟨by decide, gameNew_header_check validRom (by decide)⟩

/-- Claim C8: `CachedSixel::tick` suppresses redundant output: for a buffer
whose encoding is non-empty, an immediately repeated `tick` returns `None`;
a first-ever call, or a call whose encoding differs from the cached one,
returns `Some(Change::Text)` with the new encoding and updates the cache. -/
theorem cachedSixel_tick_diffing (enc : List Nat → Nat → Nat → List Nat)
    (lossy : List Nat → String) (s : CachedSixel) (bytes : List Nat)
    (h : enc bytes s.width s.height ≠ []) :
    CachedSixel.tick enc lossy (CachedSixel.tick enc lossy s bytes).2 bytes
        = (none, (CachedSixel.tick enc lossy s bytes).2) ∧
      (s.sixelData = [] →
        CachedSixel.tick enc lossy s bytes
          = (some (Change.text (lossy (enc bytes s.width s.height))),
             { s with sixel := lossy (enc bytes s.width s.height),
                      sixelData := enc bytes s.width s.height })) ∧
      (s.sixelData ≠ [] → s.sixelData ≠ enc bytes s.width s.height →
        CachedSixel.tick enc lossy s bytes
          = (some (Change.text (lossy (enc bytes s.width s.height))),
             { s with sixel := lossy (enc bytes s.width s.height),
                      sixelData := enc bytes s.width s.height })) := by
  refine ⟨?_, ?_, ?_⟩
  · by_cases h0 : s.sixelData = []
    · simp [CachedSixel.tick, h0, List.isEmpty_iff, h]
    · by_cases heq : s.sixelData = enc bytes s.width s.height
      · simp [CachedSixel.tick, List.isEmpty_iff, h0, heq, h]
      · simp [CachedSixel.tick, List.isEmpty_iff, h0, heq, h]
  · intro h0
    simp [CachedSixel.tick, h0]
  · intro h0 hne
    simp [CachedSixel.tick, List.isEmpty_iff, h0, hne]

theorem cachedSixel_tick_diffing_witness :
    ((fun (_ : List Nat) (_ : Nat) (_ : Nat) => [1]) ([] : List Nat)
        (CachedSixel.new 1 1).width (CachedSixel.new 1 1).height ≠ []) ∧
      (CachedSixel.tick (fun _ _ _ => [1]) (fun _ => "x")
          (CachedSixel.tick (fun _ _ _ => [1]) (fun _ => "x") (CachedSixel.new 1 1) []).2 []
        = (none,
           (CachedSixel.tick (fun _ _ _ => [1]) (fun _ => "x") (CachedSixel.new 1 1) []).2)) :=
  ⟨by decide,
    (cachedSixel_tick_diffing (fun _ _ _ => [1]) (fun _ => "x") (CachedSixel.new 1 1) []
      (by decide)).1⟩

theorem pushEvents_pending (es : List KeyEvent) (q : KeypadQueue) :
    (pushEvents q es).pending = q.pending ++ es ∧
      (pushEvents q es).disconnected = q.disconnected := by
  induction es generalizing q with
  | nil => simp [pushEvents]
  | cons e t ih =>
    have := ih (pushEvent q e)
    simpa [pushEvents, pushEvent] using this

theorem drainN_of_pending (es : List KeyEvent) (q : KeypadQueue) (h : q.pending = es) :
    drainN q es.length = some (es.map WaitResult.ev, { q with pending := [] }) := by
  induction es generalizing q with
  | nil =>
    simp [drainN]
    cases q
    simp_all
  | cons e t ih =>
    simp only [List.length_cons, drainN, keypadWait, h]
    rw [ih { q with pending := t } rfl]
    simp

/-- Claim C5: for every sequence of button events pushed by the producer,
successive `keypad_wait()` calls return exactly those events in order, with
none dropped or duplicated; and if the producer disconnects, `keypad_wait()`
still returns deterministically with an end-of-session signal rather than
blocking forever. -/
theorem keypadWait_fifo (es : List KeyEvent) (d : Bool) :
    drainN (pushEvents { pending := [], disconnected := d } es) es.length
        = some (es.map WaitResult.ev, { pending := [], disconnected := d }) ∧
      keypadWait { pending := [], disconnected := true }
        = some (WaitResult.endOfSession, { pending := [], disconnected := true }) := by
  constructor
  · obtain ⟨h1, h2⟩ := pushEvents_pending es { pending := [], disconnected := d }
    have := drainN_of_pending es (pushEvents { pending := [], disconnected := d } es)
      (by simpa using h1)
    rw [this]
    have : pushEvents { pending := [], disconnected := d } es
        = { pending := es, disconnected := d } := by
      cases hq : pushEvents { pending := [], disconnected := d } es
      simp_all
    rw [this]
  · rfl

/-- Claim C3: `replace_ram(image)` overwrites only the mutable RAM regions:
ROM bytes and every bank-controller register keep their values, the program
counter and cycle counter are unchanged (no opcode executes as a side
effect), and the snapshot is applied in full, never partially. -/
theorem replaceRam_pure_splice (m : Mmu) (image : List Nat) :
    (replaceRam m image).rom = m.rom ∧
      (replaceRam m image).ramOn = m.ramOn ∧
      (replaceRam m image).advancedMode = m.advancedMode ∧
      (replaceRam m image).romBank = m.romBank ∧
      (replaceRam m image).ramBank = m.ramBank ∧
      (replaceRam m image).pc = m.pc ∧
      (replaceRam m image).cycles = m.cycles ∧
      (replaceRam m image).ram = image := by
  simp [replaceRam]

theorem runUntil_balanced_body (prog : Nat → Inst) (synthRet : Nat) :
    ∀ (body : List Inst) (a d : Nat) (frame rest : List Nat) (mem : Nat → Nat),
      frame.length = d →
      balAux body d = true →
      (∀ i, i ≤ body.length → a + i ≠ synthRet) →
      (∀ i, i < body.length → prog (a + i) = body.getD i Inst.nop) →
      prog (a + body.length) = Inst.ret →
      runUntil prog synthRet (body.length + 2)
          { pc := a, stack := frame ++ synthRet :: rest, mem := mem }
        = some { pc := synthRet, stack := (runBody body frame mem).1.tail ++ rest,
                 mem := (runBody body frame mem).2 } ∧
        (runBody body frame mem).1 = [] := by
  intro body
  induction body with
  | nil =>
    intro a d frame rest mem hlen hbal hsynth _hload hret
    have hd : d = 0 := by simpa [balAux] using hbal
    have hframe : frame = [] := by
      cases frame with
      | nil => rfl
      | cons x t => simp [hd] at hlen
    subst hframe
    have hpc : a ≠ synthRet := by simpa using hsynth 0 (by simp)
    refine ⟨?_, by simp [runBody]⟩
    simp only [runBody, List.length_nil, Nat.zero_add, runUntil, hpc, if_false, List.nil_append]
    have hstep : step prog { pc := a, stack := synthRet :: rest, mem := mem }
        = { pc := synthRet, stack := rest, mem := mem } := by
      simp [step, show prog a = Inst.ret from by simpa using hret]
    rw [hstep]
    simp [runUntil]
  | cons i r ih =>
    intro a d frame rest mem hlen hbal hsynth hload hret
    have hpc : a ≠ synthRet := by simpa using hsynth 0 (by simp)
    have hload0 : prog a = (i :: r).getD 0 Inst.nop := by simpa using hload 0 (by simp)
    have hsynth' : ∀ j, j ≤ r.length → (a + 1) + j ≠ synthRet := by
      intro j hj
      have := hsynth (j + 1) (by simp [List.length_cons]; omega)
      omega
    have hload' : ∀ j, j < r.length → prog ((a + 1) + j) = r.getD j Inst.nop := by
      intro j hj
      have := hload (j + 1) (by simp [List.length_cons]; omega)
      simpa [Nat.add_comm, Nat.add_assoc, Nat.add_left_comm] using this
    have hret' : prog ((a + 1) + r.length) = Inst.ret := by
      have : a + (r.length + 1) = (a + 1) + r.length := by omega
      rw [← this]
      simpa [List.length_cons] using hret
    cases i with
    | push v =>
      have hbal' : balAux r (d + 1) = true := by simpa [balAux] using hbal
      have hstep : step prog { pc := a, stack := frame ++ synthRet :: rest, mem := mem }
          = { pc := a + 1, stack := (v :: frame) ++ synthRet :: rest, mem := mem } := by
        simp [step, show prog a = Inst.push v from by simpa using hload0]
      have hmain := ih (a + 1) (d + 1) (v :: frame) rest mem (by simp [hlen]) hbal'
        hsynth' hload' hret'
      refine ⟨?_, by simpa [runBody] using hmain.2⟩
      simp only [List.length_cons]
      rw [show r.length + 1 + 2 = (r.length + 2) + 1 by omega]
      simp only [runUntil, hpc, if_false]
      rw [hstep]
      simpa [runBody] using hmain.1
    | pop =>
      match d, hlen with
      | d' + 1, hlen =>
        have hbal' : balAux r d' = true := by simpa [balAux] using hbal
        cases frame with
        | nil => simp at hlen
        | cons x frame' =>
          have hlen' : frame'.length = d' := by simpa using hlen
          have hstep : step prog
              { pc := a, stack := (x :: frame') ++ synthRet :: rest, mem := mem }
              = { pc := a + 1, stack := frame' ++ synthRet :: rest, mem := mem } := by
            simp [step, show prog a = Inst.pop from by simpa using hload0]
          have hmain := ih (a + 1) d' frame' rest mem hlen' hbal' hsynth' hload' hret'
          refine ⟨?_, by simpa [runBody] using hmain.2⟩
          simp only [List.length_cons]
          rw [show r.length + 1 + 2 = (r.length + 2) + 1 by omega]
          simp only [runUntil, hpc, if_false]
          rw [hstep]
          simpa [runBody] using hmain.1
    | setm av vv =>
      have hbal' : balAux r d = true := by simpa [balAux] using hbal
      have hstep : step prog { pc := a, stack := frame ++ synthRet :: rest, mem := mem }
          = { pc := a + 1, stack := frame ++ synthRet :: rest, mem := memSet mem av vv } := by
        simp [step, show prog a = Inst.setm av vv from by simpa using hload0]
      have hmain := ih (a + 1) d frame rest (memSet mem av vv) hlen hbal' hsynth' hload' hret'
      refine ⟨?_, by simpa [runBody] using hmain.2⟩
      simp only [List.length_cons]
      rw [show r.length + 1 + 2 = (r.length + 2) + 1 by omega]
      simp only [runUntil, hpc, if_false]
      rw [hstep]
      simpa [runBody] using hmain.1
    | nop =>
      have hbal' : balAux r d = true := by simpa [balAux] using hbal
      have hstep : step prog { pc := a, stack := frame ++ synthRet :: rest, mem := mem }
          = { pc := a + 1, stack := frame ++ synthRet :: rest, mem := mem } := by
        simp [step, show prog a = Inst.nop from by simpa using hload0]
      have hmain := ih (a + 1) d frame rest mem hlen hbal' hsynth' hload' hret'
      refine ⟨?_, by simpa [runBody] using hmain.2⟩
      simp only [List.length_cons]
      rw [show r.length + 1 + 2 = (r.length + 2) + 1 by omega]
      simp only [runUntil, hpc, if_false]
      rw [hstep]
      simpa [runBody] using hmain.1
    | ret => simp [balAux] at hbal

/-- Claim C1: for every address whose target routine balances its own stack,
`cpu.call(addr)` pushes a synthetic return address, transfers execution to
the binary opcode stream, and when the synthetic return address is reached
control returns to the native caller with the stack exactly as before the
call and memory as the binary routine left it. -/
theorem call_balanced_returns (prog : Nat → Inst) (synthRet addr : Nat) (body : List Inst)
    (s : MState)
    (hbal : balanced body = true)
    (hload : ∀ i, i < body.length → prog (addr + i) = body.getD i Inst.nop)
    (hret : prog (addr + body.length) = Inst.ret)
    (hsynth : ∀ i, i ≤ body.length → addr + i ≠ synthRet) :
    callRoutine prog synthRet addr (body.length + 2) s
      = some { pc := synthRet, stack := s.stack, mem := (runBody body [] s.mem).2 } := by
  have h := runUntil_balanced_body prog synthRet body addr 0 [] s.stack s.mem rfl hbal
    hsynth hload hret
  unfold callRoutine
  rw [show ({ s with stack := synthRet :: s.stack, pc := addr } : MState)
      = { pc := addr, stack := [] ++ synthRet :: s.stack, mem := s.mem } by simp]
  rw [h.1, h.2]
  simp

theorem call_balanced_returns_witness :
    (balanced demoBody = true ∧
        (∀ i, i < demoBody.length → demoProg (100 + i) = demoBody.getD i Inst.nop) ∧
        demoProg (100 + demoBody.length) = Inst.ret ∧
        (∀ i, i ≤ demoBody.length → 100 + i ≠ 50)) ∧
      callRoutine demoProg 50 100 (demoBody.length + 2)
          { pc := 0, stack := [11, 22], mem := fun _ => 0 }
        = some { pc := 50, stack := [11, 22],
                 mem := (runBody demoBody [] (fun _ => 0)).2 } :=
  ⟨⟨by decide, by decide, by decide, by decide⟩,
    call_balanced_returns demoProg 50 100 demoBody
      { pc := 0, stack := [11, 22], mem := fun _ => 0 }
      (by decide) (by decide) (by decide) (by decide)⟩

theorem decodeNameFrom_eq_spec (bytes : Nat → Nat) :
    ∀ (n i : Nat),
      decodeNameFrom bytes i n
        = specDecodeName ((List.range n).map (fun j => bytes (i + j))) := by
  intro n
  induction n with
  | zero => intro i; simp [decodeNameFrom, specDecodeName]
  | succ m ih =>
    intro i
    rw [List.range_succ_eq_map]
    simp only [List.map_cons, List.map_map]
    have hcomp : ((fun j => bytes (i + j)) ∘ Nat.succ) = fun j => bytes ((i + 1) + j) := by
      funext j
      simp [Function.comp]
      ring_nf
    rw [hcomp]
    simp only [decodeNameFrom, specDecodeName, charForByte, Nat.add_zero]
    by_cases h50 : bytes i = 0x50
    · simp [h50]
    · by_cases hU : 0x80 ≤ bytes i ∧ bytes i ≤ 0x99
      · simp [h50, hU, ih (i + 1)]
      · by_cases hL : 0xa0 ≤ bytes i ∧ bytes i ≤ 0xb9
        · simp [h50, hU, hL, ih (i + 1)]
        · by_cases hD : 0xf6 ≤ bytes i ∧ bytes i ≤ 0xff
          · simp [h50, hU, hL, hD, ih (i + 1)]
          · simp [h50, hU, hL, hD]

theorem sram_reads_unaffected_by_control_writes (st : St) :
    (fun j => (memSet (memSet (memSet st.mem MBC1_SRAM_ENABLE SRAM_ENABLE)
          MBC1_SRAM_BANKING_MODE 1) MBC1_SRAM_BANK 1) (S_PLAYER_NAME + j))
      = fun j => st.mem (S_PLAYER_NAME + j) := by
  funext j
  simp only [memSet, MBC1_SRAM_ENABLE, MBC1_SRAM_BANKING_MODE, MBC1_SRAM_BANK,
    S_PLAYER_NAME, SRAM_ENABLE]
  rw [if_neg (by omega), if_neg (by omega), if_neg (by omega)]

/-- Claim C7: `check_for_player_name_in_sram` decodes the player name from
SRAM by the fixed byte-to-character mapping: successive bytes from the
player-name address, stopping at the first 0x50 terminator or after
NAME_LENGTH+1 bytes; 0x80..=0x99 map to A..Z, 0xa0..=0xb9 to a..z,
0xf6..=0xff to 0..9, and any other non-terminator byte is a panic. -/
theorem checkForPlayerName_decodes (st : St) :
    checkForPlayerNameInSram st =
      match specDecodeName ((List.range (NAME_LENGTH + 1)).map
          (fun j => st.mem (S_PLAYER_NAME + j))) with
      | Except.ok cs =>
        Except.ok (String.mk cs,
          ((((st.writeByte MBC1_SRAM_ENABLE SRAM_ENABLE).writeByte
                MBC1_SRAM_BANKING_MODE 1).writeByte
              MBC1_SRAM_BANK 1).writeByte
            MBC1_SRAM_ENABLE SRAM_DISABLE).writeByte
            MBC1_SRAM_BANKING_MODE 0)
      | Except.error b => Except.error (MenuErr.invalidNameChar b) := by
  unfold checkForPlayerNameInSram
  dsimp only
  have hmem : (((st.writeByte MBC1_SRAM_ENABLE SRAM_ENABLE).writeByte
        MBC1_SRAM_BANKING_MODE 1).writeByte MBC1_SRAM_BANK 1).mem
      = memSet (memSet (memSet st.mem MBC1_SRAM_ENABLE SRAM_ENABLE)
          MBC1_SRAM_BANKING_MODE 1) MBC1_SRAM_BANK 1 := rfl
  rw [hmem, decodeNameFrom_eq_spec, sram_reads_unaffected_by_control_writes]
  cases specDecodeName ((List.range (NAME_LENGTH + 1)).map
      (fun j => st.mem (S_PLAYER_NAME + j))) <;> rfl

/-- Claim C6: if listing save files fails, the menu degrades to the
no-saves behaviour: `main_menu` logs the error, treats `has_saves` as
false (save-file status byte 1, not 2; only NEW GAME and OPTION drawn;
`max_menu_item` 1), and `main_menu_select_save` returns false on a listing
error or an empty list without pushing any layer or mutating emulator
state (only the host error log grows). -/
theorem saveListing_error_degrades (e : String) (st : St) (keys : List KeypadKey)
    (fuel : Nat) :
    ((mainMenuSetup (Except.error e) st).2.1 = false ∧
      (mainMenuSetup (Except.error e) st).2.2.1 = 1 ∧
      (mainMenuSetup (Except.error e) st).1.errLog = st.errLog + 1 ∧
      (mainMenuSetup (Except.error e) st).1.events
        = st.events ++ setupEventsNoSaves (st.mem W_D72E) ∧
      Ev.wbyte W_SAVE_FILE_STATUS 1 ∈ setupEventsNoSaves (st.mem W_D72E) ∧
      Ev.wbyte W_SAVE_FILE_STATUS 2 ∉ setupEventsNoSaves (st.mem W_D72E) ∧
      (mainMenuSetup (Except.error e) st).1.gpu.draws
        = st.gpu.draws
            ++ [DrawOp.border st.gpu.next 0 0 13 4,
                DrawOp.str st.gpu.next 2 2 "NEW GAME",
                DrawOp.str st.gpu.next 2 4 "OPTION"]) ∧
      mainMenuSelectSave (Except.error e) st keys fuel
        = Except.ok (false, { st with errLog := st.errLog + 1 }, keys) ∧
      mainMenuSelectSave (Except.ok []) st keys fuel = Except.ok (false, st, keys) := by
  refine ⟨⟨?_, ?_, ?_, ?_, ?_, ?_, ?_⟩, ?_, ?_⟩
  · rfl
  · rfl
  · rfl
  · simp [mainMenuSetup, setupEventsNoSaves, initOptions, St.call, St.writeByte, St.readByte,
      St.logError, St.stackPush, St.paletteCmd, St.gpuPushLayer, textBoxBorder, placeString,
      St.draw, memSet, W_LETTER_PRINTING_DELAY_FLAGS, W_OPTIONS, W_PRINTER_SETTINGS,
      W_OPTIONS_INITIALIZED, W_SAVE_FILE_STATUS, W_LINK_STATE,
      W_PARTY_AND_BILLS_PC_SAVED_MENU_ITEM, W_DEFAULT_MAP, W_D72E, LINK_STATE_NONE,
      TEXT_DELAY_FAST, TEXT_DELAY_MEDIUM]
  · simp [setupEventsNoSaves]
  · simp [setupEventsNoSaves, W_SAVE_FILE_STATUS, W_LETTER_PRINTING_DELAY_FLAGS, W_OPTIONS,
      W_PRINTER_SETTINGS, W_OPTIONS_INITIALIZED, W_LINK_STATE,
      W_PARTY_AND_BILLS_PC_SAVED_MENU_ITEM, W_DEFAULT_MAP, W_D72E, LINK_STATE_NONE,
      TEXT_DELAY_FAST, TEXT_DELAY_MEDIUM]
  · simp [mainMenuSetup, initOptions, St.call, St.writeByte, St.readByte, St.logError,
      St.stackPush, St.paletteCmd, St.gpuPushLayer, textBoxBorder, placeString, St.draw]
  · rfl
  · rfl

/-! ### Claim C4: strict LIFO layer discipline -/

theorem checkName_preserves (st : St) (name : String) (st' : St)
    (h : checkForPlayerNameInSram st = Except.ok (name, st')) :
    st'.gpu = st.gpu ∧ st'.errLog = st.errLog := by
  unfold checkForPlayerNameInSram at h
  dsimp only at h
  split at h
  · cases h
  · rw [Except.ok.injEq, Prod.mk.injEq] at h
    obtain ⟨-, h2⟩ := h
    subst h2
    exact ⟨rfl, rfl⟩

theorem displayInfo_preserves (st : St) (keys : List KeypadKey) (fuel : Nat)
    (r : Bool) (st' : St) (keys' : List KeypadKey)
    (h : displayContinueGameInfo st keys fuel = Except.ok (r, st', keys')) :
    st'.gpu.stack = st.gpu.stack ∧ st'.gpu.badPop = st.gpu.badPop := by
  unfold displayContinueGameInfo at h
  split at h
  · cases h
  next name st1 heq =>
    dsimp only at h
    split at h
    · cases h
    next result keys2 hwait =>
      rw [Except.ok.injEq, Prod.mk.injEq] at h
      obtain ⟨-, h⟩ := h
      rw [Prod.mk.injEq] at h
      obtain ⟨h2, -⟩ := h
      obtain ⟨hg, -⟩ := checkName_preserves st name st1 heq
      subst h2
      constructor
      · simp [St.gpuPopLayer, St.gpuPushLayer, textBoxBorder, placeString, St.draw,
          St.gpuUpdateScreen, hg]
      · simp [St.gpuPopLayer, St.gpuPushLayer, textBoxBorder, placeString, St.draw,
          St.gpuUpdateScreen, hg]

theorem selectSaveLoop_preserves (list firstPage : List SaveFile) (layer : Nat) :
    ∀ (fuel selected : Nat) (st : St) (keys : List KeypadKey) (b : Bool) (st' : St)
      (keys' : List KeypadKey),
      selectSaveLoop list firstPage layer selected st keys fuel = Except.ok (b, st', keys') →
      st.gpu.stack.head? = some layer →
      st'.gpu.stack = st.gpu.stack.tail ∧ st'.gpu.badPop = st.gpu.badPop := by
  intro fuel
  induction fuel with
  | zero =>
    intro selected st keys b st' keys' h _
    exact absurd h (by simp [selectSaveLoop])
  | succ f ih =>
    intro selected st keys b st' keys' h hhead
    rw [selectSaveLoop.eq_def] at h
    dsimp only at h
    cases keys with
    | nil => cases h
    | cons k ks =>
      cases k with
      | B =>
        dsimp only at h
        rw [Except.ok.injEq, Prod.mk.injEq] at h
        obtain ⟨-, h⟩ := h
        rw [Prod.mk.injEq] at h
        obtain ⟨h2, -⟩ := h
        subst h2
        constructor <;>
          simp [St.gpuPopLayer, setBackground, St.draw, St.gpuUpdateScreen, hhead]
      | Up =>
        dsimp only at h
        split at h
        · have hrec := ih _ _ _ _ _ _ h
            (by simpa [setBackground, St.draw, St.gpuUpdateScreen] using hhead)
          exact hrec
        · have hrec := ih _ _ _ _ _ _ h
            (by simpa [setBackground, St.draw, St.gpuUpdateScreen] using hhead)
          exact hrec
      | Down =>
        dsimp only at h
        split at h
        · cases h
        · split at h
          · have hrec := ih _ _ _ _ _ _ h
              (by simpa [setBackground, St.draw, St.gpuUpdateScreen] using hhead)
            exact hrec
          · have hrec := ih _ _ _ _ _ _ h
              (by simpa [setBackground, St.draw, St.gpuUpdateScreen] using hhead)
            exact hrec
      | A =>
        dsimp only at h
        split at h
        next hlt =>
          split at h
          · cases h
          next st5 keys5 hdisp =>
            rw [Except.ok.injEq, Prod.mk.injEq] at h
            obtain ⟨-, h⟩ := h
            rw [Prod.mk.injEq] at h
            obtain ⟨h2, -⟩ := h
            obtain ⟨hg, hb⟩ := displayInfo_preserves _ ks f true st5 keys5 hdisp
            have hstack : st5.gpu.stack = st.gpu.stack := by
              simpa [St.replaceRam, St.predefLoadSAV, setBackground, St.draw,
                St.gpuUpdateScreen] using hg
            have hbp : st5.gpu.badPop = st.gpu.badPop := by
              simpa [St.replaceRam, St.predefLoadSAV, setBackground, St.draw,
                St.gpuUpdateScreen] using hb
            subst h2
            constructor
            · simp [St.gpuPopLayer, hstack, hhead]
            · simp [St.gpuPopLayer, hstack, hbp, hhead]
          next st5 keys5 hdisp =>
            have hg := displayInfo_preserves _ ks f false st5 keys5 hdisp
            have hstack : st5.gpu.stack = st.gpu.stack := by
              simpa [St.replaceRam, St.predefLoadSAV, setBackground, St.draw,
                St.gpuUpdateScreen] using hg.1
            have hbp : st5.gpu.badPop = st.gpu.badPop := by
              simpa [St.replaceRam, St.predefLoadSAV, setBackground, St.draw,
                St.gpuUpdateScreen] using hg.2
            have hrec := ih _ _ _ _ _ _ h (by rw [hstack]; exact hhead)
            rw [hstack, hbp] at hrec
            exact hrec
        · cases h
      | Left =>
        dsimp only at h
        have hrec := ih _ _ _ _ _ _ h
          (by simpa [setBackground, St.draw, St.gpuUpdateScreen] using hhead)
        exact hrec
      | Right =>
        dsimp only at h
        have hrec := ih _ _ _ _ _ _ h
          (by simpa [setBackground, St.draw, St.gpuUpdateScreen] using hhead)
        exact hrec
      | Start =>
        dsimp only at h
        have hrec := ih _ _ _ _ _ _ h
          (by simpa [setBackground, St.draw, St.gpuUpdateScreen] using hhead)
        exact hrec
      | Select =>
        dsimp only at h
        have hrec := ih _ _ _ _ _ _ h
          (by simpa [setBackground, St.draw, St.gpuUpdateScreen] using hhead)
        exact hrec

theorem foldl_placeString_gpu (l : List (Nat × SaveFile)) (layer : Nat) (st : St) :
    (l.foldl (fun st p => placeString layer 2 (p.1 * 2 + 2) p.2.name st) st).gpu.stack
        = st.gpu.stack ∧
      (l.foldl (fun st p => placeString layer 2 (p.1 * 2 + 2) p.2.name st) st).gpu.badPop
        = st.gpu.badPop := by
  induction l generalizing st with
  | nil => exact ⟨rfl, rfl⟩
  | cons a t ih =>
    simp only [List.foldl_cons]
    exact ih _

theorem mainMenuSelectSave_preserves (saves : Except String (List SaveFile)) (st : St)
    (keys : List KeypadKey) (fuel : Nat) (b : Bool) (st' : St) (keys' : List KeypadKey)
    (h : mainMenuSelectSave saves st keys fuel = Except.ok (b, st', keys')) :
    st'.gpu.stack = st.gpu.stack ∧ st'.gpu.badPop = st.gpu.badPop := by
  unfold mainMenuSelectSave at h
  split at h
  · rw [Except.ok.injEq, Prod.mk.injEq] at h
    obtain ⟨-, h⟩ := h
    rw [Prod.mk.injEq] at h
    obtain ⟨h2, -⟩ := h
    subst h2
    exact ⟨rfl, rfl⟩
  next list =>
    dsimp only at h
    split at h
    · rw [Except.ok.injEq, Prod.mk.injEq] at h
      obtain ⟨-, h⟩ := h
      rw [Prod.mk.injEq] at h
      obtain ⟨h2, -⟩ := h
      subst h2
      exact ⟨rfl, rfl⟩
    · obtain ⟨hs, hb⟩ := foldl_placeString_gpu ((list.take (Nat.min 8 list.length)).enum)
        st.gpuPushLayer.1
        (textBoxBorder st.gpuPushLayer.1 0 0 18 ((list.take (Nat.min 8 list.length)).length * 2)
          st.gpuPushLayer.2)
      have hrec := selectSaveLoop_preserves _ _ _ _ _ _ _ _ _ _ h (by rw [hs]; rfl)
      rw [hs, hb] at hrec
      exact hrec

theorem mainMenuLoop_preserves (saves : Except String (List SaveFile)) (layer : Nat)
    (hasSaves : Bool) (maxMenuItem : Nat) :
    ∀ (fuel selected : Nat) (st : St) (keys : List KeypadKey) (st' : St)
      (keys' : List KeypadKey),
      mainMenuLoop saves layer hasSaves maxMenuItem selected st keys fuel
          = Except.ok (st', keys') →
      st.gpu.stack.head? = some layer →
      st'.gpu.stack = st.gpu.stack.tail ∧ st'.gpu.badPop = st.gpu.badPop := by
  intro fuel
  induction fuel with
  | zero =>
    intro selected st keys st' keys' h _
    exact absurd h (by simp [mainMenuLoop])
  | succ f ih =>
    intro selected st keys st' keys' h hhead
    rw [mainMenuLoop.eq_def] at h
    dsimp only at h
    cases keys with
    | nil => cases h
    | cons k ks =>
      cases k with
      | B =>
        dsimp only at h
        rw [Except.ok.injEq, Prod.mk.injEq] at h
        obtain ⟨h2, -⟩ := h
        subst h2
        constructor <;>
          simp [St.jump, St.gpuPopLayer, setBackground, St.draw, St.gpuUpdateScreen, hhead]
      | Up =>
        dsimp only at h
        split at h
        · have hrec := ih _ _ _ _ _ h
            (by simpa [setBackground, St.draw, St.gpuUpdateScreen] using hhead)
          exact hrec
        · have hrec := ih _ _ _ _ _ h
            (by simpa [setBackground, St.draw, St.gpuUpdateScreen] using hhead)
          exact hrec
      | Down =>
        dsimp only at h
        split at h
        · have hrec := ih _ _ _ _ _ h
            (by simpa [setBackground, St.draw, St.gpuUpdateScreen] using hhead)
          exact hrec
        · have hrec := ih _ _ _ _ _ h
            (by simpa [setBackground, St.draw, St.gpuUpdateScreen] using hhead)
          exact hrec
      | A =>
        dsimp only at h
        split at h
        · -- item 0: CONTINUE, enters the save selection
          split at h
          · cases h
          next st5 keys5 hsel =>
            rw [Except.ok.injEq, Prod.mk.injEq] at h
            obtain ⟨h2, -⟩ := h
            obtain ⟨hg, hb⟩ := mainMenuSelectSave_preserves _ _ _ _ _ _ _ hsel
            have hstack : st5.gpu.stack = st.gpu.stack := by
              simpa [setBackground, St.draw, St.gpuUpdateScreen] using hg
            have hbp : st5.gpu.badPop = st.gpu.badPop := by
              simpa [setBackground, St.draw, St.gpuUpdateScreen] using hb
            subst h2
            constructor
            · simp [St.jump, St.gpuPopLayer, hstack, hhead]
            · simp [St.jump, St.gpuPopLayer, hstack, hbp, hhead]
          next st5 keys5 hsel =>
            obtain ⟨hg, hb⟩ := mainMenuSelectSave_preserves _ _ _ _ _ _ _ hsel
            have hstack : st5.gpu.stack = st.gpu.stack := by
              simpa [setBackground, St.draw, St.gpuUpdateScreen] using hg
            have hbp : st5.gpu.badPop = st.gpu.badPop := by
              simpa [setBackground, St.draw, St.gpuUpdateScreen] using hb
            have hrec := ih _ _ _ _ _ h (by rw [hstack]; exact hhead)
            rw [hstack, hbp] at hrec
            exact hrec
        · -- item 1: NEW GAME
          rw [Except.ok.injEq, Prod.mk.injEq] at h
          obtain ⟨h2, -⟩ := h
          subst h2
          constructor <;>
            simp [St.jump, St.gpuPopLayer, setBackground, St.draw, St.gpuUpdateScreen, hhead]
        · -- item 2: OPTION
          rw [Except.ok.injEq, Prod.mk.injEq] at h
          obtain ⟨h2, -⟩ := h
          subst h2
          constructor <;>
            simp [St.jump, St.call, St.writeByte, St.gpuPopLayer, setBackground, St.draw,
              St.gpuUpdateScreen, hhead]
        · cases h
      | Left =>
        dsimp only at h
        have hrec := ih _ _ _ _ _ h
          (by simpa [setBackground, St.draw, St.gpuUpdateScreen] using hhead)
        exact hrec
      | Right =>
        dsimp only at h
        have hrec := ih _ _ _ _ _ h
          (by simpa [setBackground, St.draw, St.gpuUpdateScreen] using hhead)
        exact hrec
      | Start =>
        dsimp only at h
        have hrec := ih _ _ _ _ _ h
          (by simpa [setBackground, St.draw, St.gpuUpdateScreen] using hhead)
        exact hrec
      | Select =>
        dsimp only at h
        have hrec := ih _ _ _ _ _ h
          (by simpa [setBackground, St.draw, St.gpuUpdateScreen] using hhead)
        exact hrec

theorem mainMenuSetup_gpu (saves : Except String (List SaveFile)) (st : St) :
    (mainMenuSetup saves st).1.gpu.stack = st.gpu.next :: st.gpu.stack ∧
      (mainMenuSetup saves st).1.gpu.badPop = st.gpu.badPop ∧
      (mainMenuSetup saves st).2.2.2 = st.gpu.next := by
  unfold mainMenuSetup
  cases saves with
  | error e => exact ⟨rfl, rfl, rfl⟩
  | ok files =>
    by_cases he : files.isEmpty <;>
      simp [he, initOptions, St.call, St.writeByte, St.readByte, St.stackPush, St.paletteCmd,
        St.gpuPushLayer, textBoxBorder, placeString, St.draw]

/-- Claim C4: on every completed path through `main_menu` and its helpers
`main_menu_select_save` and `display_continue_game_info`, every
`gpu_pop_layer(h)` pops the most recently pushed unpopped layer (the
out-of-order-pop count never grows) and no path returns with a layer it
pushed still unpopped (the layer stack is exactly as on entry). -/
theorem menu_layers_lifo (saves : Except String (List SaveFile)) (st : St)
    (keys : List KeypadKey) (fuel : Nat) :
    ((mainMenu saves st keys fuel).isOk = true →
        layerView (mainMenu saves st keys fuel) = some (st.gpu.stack, st.gpu.badPop)) ∧
      ((mainMenuSelectSave saves st keys fuel).isOk = true →
        layerView3 (mainMenuSelectSave saves st keys fuel)
          = some (st.gpu.stack, st.gpu.badPop)) ∧
      ((displayContinueGameInfo st keys fuel).isOk = true →
        layerView3 (displayContinueGameInfo st keys fuel)
          = some (st.gpu.stack, st.gpu.badPop)) := by
  refine ⟨?_, ?_, ?_⟩
  · intro hok
    cases hres : mainMenu saves st keys fuel with
    | error e => rw [hres] at hok; cases hok
    | ok out =>
      obtain ⟨st', keys'⟩ := out
      obtain ⟨hs1, hb1, hl1⟩ := mainMenuSetup_gpu saves st
      have hrun : mainMenuLoop saves (mainMenuSetup saves st).2.2.2
          (mainMenuSetup saves st).2.1 (mainMenuSetup saves st).2.2.1 0
          (mainMenuSetup saves st).1 keys fuel = Except.ok (st', keys') := by
        rw [← hres]
        unfold mainMenu
        rfl
      have hpres := mainMenuLoop_preserves saves (mainMenuSetup saves st).2.2.2
        (mainMenuSetup saves st).2.1 (mainMenuSetup saves st).2.2.1 fuel 0
        (mainMenuSetup saves st).1 keys st' keys' hrun (by rw [hs1, hl1]; rfl)
      rw [hs1, hb1] at hpres
      show some (st'.gpu.stack, st'.gpu.badPop) = some (st.gpu.stack, st.gpu.badPop)
      rw [hpres.1, hpres.2]
      rfl
  · intro hok
    cases hres : mainMenuSelectSave saves st keys fuel with
    | error e => rw [hres] at hok; cases hok
    | ok out =>
      obtain ⟨b, st', keys'⟩ := out
      obtain ⟨hg, hb⟩ := mainMenuSelectSave_preserves saves st keys fuel b st' keys' hres
      show some (st'.gpu.stack, st'.gpu.badPop) = some (st.gpu.stack, st.gpu.badPop)
      rw [hg, hb]
  · intro hok
    cases hres : displayContinueGameInfo st keys fuel with
    | error e => rw [hres] at hok; cases hok
    | ok out =>
      obtain ⟨b, st', keys'⟩ := out
      obtain ⟨hg, hb⟩ := displayInfo_preserves st keys fuel b st' keys' hres
      show some (st'.gpu.stack, st'.gpu.badPop) = some (st.gpu.stack, st.gpu.badPop)
      rw [hg, hb]

theorem menu_layers_lifo_witness :
    (mainMenu (Except.error "io") demoSt [KeypadKey.B] 2).isOk = true ∧
      layerView (mainMenu (Except.error "io") demoSt [KeypadKey.B] 2)
        = some (demoSt.gpu.stack, demoSt.gpu.badPop) :=
  ⟨rfl, (menu_layers_lifo (Except.error "io") demoSt [KeypadKey.B] 2).1 rfl⟩

theorem isIndexFault_error {α : Type} (e : MenuErr) :
    isIndexFault (Except.error e : Except MenuErr α) = faultErr e := rfl

theorem waitABLoop_no_fault :
    ∀ (fuel : Nat) (keys : List KeypadKey), isIndexFault (waitABLoop keys fuel) = false := by
  intro fuel
  induction fuel with
  | zero => intro keys; cases keys <;> rfl
  | succ f ih =>
    intro keys
    cases keys with
    | nil => rfl
    | cons k ks => cases k <;> first | rfl | exact ih ks

theorem checkName_no_fault (st : St) :
    isIndexFault (checkForPlayerNameInSram st) = false := by
  unfold checkForPlayerNameInSram
  dsimp only
  split <;> rfl

theorem displayInfo_no_fault (st : St) (keys : List KeypadKey) (fuel : Nat) :
    isIndexFault (displayContinueGameInfo st keys fuel) = false := by
  unfold displayContinueGameInfo
  split
  next e heq =>
    have hc := checkName_no_fault st
    rw [heq, isIndexFault_error] at hc
    rw [isIndexFault_error]
    exact hc
  next name st1 heq =>
    dsimp only
    split
    next e hwait =>
      have hw := waitABLoop_no_fault fuel keys
      rw [hwait, isIndexFault_error] at hw
      rw [isIndexFault_error]
      exact hw
    next => rfl

theorem selectSaveLoop_no_fault (list firstPage : List SaveFile) (layer : Nat)
    (hsub : firstPage.length ≤ list.length) :
    ∀ (fuel selected : Nat) (st : St) (keys : List KeypadKey),
      selected < firstPage.length →
      isIndexFault (selectSaveLoop list firstPage layer selected st keys fuel) = false := by
  intro fuel
  induction fuel with
  | zero => intro selected st keys _; rfl
  | succ f ih =>
    intro selected st keys hsel
    rw [selectSaveLoop.eq_def]
    dsimp only
    cases keys with
    | nil => rfl
    | cons k ks =>
      cases k with
      | B => rfl
      | Up =>
        dsimp only
        split
        · exact ih _ _ _ (by omega)
        · exact ih _ _ _ hsel
      | Down =>
        dsimp only
        split
        next h0 => exact absurd h0 (by omega)
        next n hn =>
          split
          next hlt => exact ih _ _ _ (by omega)
          next => exact ih _ _ _ hsel
      | A =>
        dsimp only
        split
        next hlt =>
          split
          next e heq =>
            have hd := displayInfo_no_fault
              ((setBackground layer 1 (selected * 2 + 2)
                  SELECTED_ITEM st).gpuUpdateScreen.replaceRam
                (list.get ⟨selected, hlt⟩).data).predefLoadSAV ks f
            rw [heq, isIndexFault_error] at hd
            rw [isIndexFault_error]
            exact hd
          next => rfl
          next => exact ih _ _ _ hsel
        next hge => exact absurd (Nat.lt_of_lt_of_le hsel hsub) hge
      | Left => exact ih _ _ _ hsel
      | Right => exact ih _ _ _ hsel
      | Start => exact ih _ _ _ hsel
      | Select => exact ih _ _ _ hsel

theorem mainMenuSelectSave_no_fault (saves : Except String (List SaveFile)) (st : St)
    (keys : List KeypadKey) (fuel : Nat) :
    isIndexFault (mainMenuSelectSave saves st keys fuel) = false := by
  unfold mainMenuSelectSave
  split
  · rfl
  next list =>
    dsimp only
    split
    · rfl
    next hne =>
      have hlen : (list.take (Nat.min 8 list.length)).length ≤ list.length := by
        simp [List.length_take]
      have hpos : 0 < (list.take (Nat.min 8 list.length)).length := by
        have : 0 < list.length := by
          cases list with
          | nil => simp at hne
          | cons a t => simp
        simp [List.length_take]
        omega
      exact selectSaveLoop_no_fault _ _ _ hlen fuel 0 _ keys hpos

theorem mainMenuLoop_no_fault (saves : Except String (List SaveFile)) (layer : Nat)
    (hasSaves : Bool) (maxMenuItem : Nat)
    (hmax : maxMenuItem = if hasSaves then 2 else 1) :
    ∀ (fuel selected : Nat) (st : St) (keys : List KeypadKey),
      selected ≤ maxMenuItem →
      isIndexFault (mainMenuLoop saves layer hasSaves maxMenuItem selected st keys fuel)
        = false := by
  intro fuel
  induction fuel with
  | zero => intro selected st keys _; rfl
  | succ f ih =>
    intro selected st keys hsel
    rw [mainMenuLoop.eq_def]
    dsimp only
    cases keys with
    | nil => rfl
    | cons k ks =>
      cases k with
      | B => rfl
      | Up =>
        dsimp only
        split
        · exact ih _ _ _ (by omega)
        · exact ih _ _ _ hsel
      | Down =>
        dsimp only
        split
        next hlt => exact ih _ _ _ (by omega)
        next => exact ih _ _ _ hsel
      | A =>
        dsimp only
        split
        next =>
          split
          next e hseleq =>
            have hs := mainMenuSelectSave_no_fault saves
              (setBackground layer 1 (selected * 2 + 2) SELECTED_ITEM st).gpuUpdateScreen ks f
            rw [hseleq, isIndexFault_error] at hs
            rw [isIndexFault_error]
            exact hs
          next => rfl
          next => exact ih _ _ _ hsel
        next => rfl
        next => rfl
        next n hn =>
          exact absurd hn (by cases hasSaves <;> simp_all)
      | Left => exact ih _ _ _ hsel
      | Right => exact ih _ _ _ hsel
      | Start => exact ih _ _ _ hsel
      | Select => exact ih _ _ _ hsel

theorem mainMenuSetup_max (saves : Except String (List SaveFile)) (st : St) :
    (mainMenuSetup saves st).2.2.1 = if (mainMenuSetup saves st).2.1 then 2 else 1 := by
  cases saves <;> rfl

/-- Claim C9: the menu index arithmetic never faults: in `main_menu`'s event
loop `selected` stays within `0..=max_menu_item`, so the `unreachable!` arm
never executes; in `main_menu_select_save` the list is non-empty when
indexed and `selected` stays below `first_page.len()`, so
`first_page.len() - 1` never underflows and `list[selected]` never
panics. -/
theorem menu_index_arithmetic_safe (saves : Except String (List SaveFile)) (st : St)
    (keys : List KeypadKey) (fuel : Nat) :
    isIndexFault (mainMenu saves st keys fuel) = false ∧
      isIndexFault (mainMenuSelectSave saves st keys fuel) = false := by
  constructor
  · unfold mainMenu
    have hm := mainMenuSetup_max saves st
    rcases hS : mainMenuSetup saves st with ⟨st1, hasS, maxI, layer⟩
    rw [hS] at hm
    dsimp only
    dsimp only at hm
    exact mainMenuLoop_no_fault saves layer hasS maxI hm fuel 0 st1 keys (Nat.zero_le maxI)
  · exact mainMenuSelectSave_no_fault saves st keys fuel

theorem saveListing_error_degrades_witness :
    Ev.wbyte W_SAVE_FILE_STATUS 2 ∉ setupEventsNoSaves (demoSt.mem W_D72E) :=
  (saveListing_error_degrades "io" demoSt [] 0).1.2.2.2.2.2.1

end RusticYellow
